import Mathlib

/-!
Shallow embedding of the student-event backend (services.py, models.py).

Conventions of the embedding:
* Timestamps are integers (seconds); `datetime.fromisoformat` on a raw
  request string is modelled by `DateStr`/`parseDate` (a string either
  parses to a timestamp or raises `ValueError`).
* Python `int(...)` conversion of a JSON value is modelled by
  `PyVal`/`pyInt`.
* Python string methods `strip`, `lower`, `lstrip('#')` and the `in`
  substring test are modelled character-listwise (`pyStrip`, `pyLower`,
  `lstripHash`, `pyIn`); SQL `ILIKE '%term%'` is modelled as
  case-insensitive substring containment (`ilikeContains`), exact for
  terms free of LIKE metacharacters.
* The SQLAlchemy session is modelled by threading a `Store` value through
  each service call.  An early `return` without `db.session.rollback()`
  keeps mutations made so far (the identity-mapped ORM objects stay
  dirty in the session); `db.session.commit()` enforces the
  `CheckConstraint`s of `events.__table_args__` (SQLite enforces CHECK
  on INSERT and UPDATE), and on violation the `except SQLAlchemyError`
  handlers roll the whole transaction back.
* Columns never read by the modelled services (surrogate ids of
  attendance/notification rows, `is_read`, `created_at`,
  `registered_at`, `attended`) are omitted.
-/

/-- Characters treated as whitespace by Python `str.strip()`. -/
def pySpace (c : Char) : Bool :=
  c == ' ' || c == '\t' || c == '\n' || c == '\r' || c == '\x0b' || c == '\x0c'

/-- Models Python `s.strip()`. -/
def pyStrip (s : String) : String :=
  ⟨((s.data.dropWhile pySpace).reverse.dropWhile pySpace).reverse⟩

/-- Models Python `s.lower()` (ASCII case folding). -/
def pyLower (s : String) : String :=
  ⟨s.data.map Char.toLower⟩

/-- Boolean test that the first list is a prefix of the second. -/
def listPrefixOf : List Char → List Char → Bool
  | [], _ => true
  | _ :: _, [] => false
  | a :: as, b :: bs => a == b && listPrefixOf as bs

/-- Boolean test that the first list occurs as a contiguous sublist of the second. -/
def listContains : List Char → List Char → Bool
  | n, [] => n.isEmpty
  | n, h :: hs => listPrefixOf n (h :: hs) || listContains n hs

/-- Models Python `needle in hay` (substring containment). -/
def pyIn (needle hay : String) : Bool :=
  listContains needle.data hay.data

/-- Models SQL `hay ILIKE '%needle%'`. -/
def ilikeContains (hay needle : String) : Bool :=
  pyIn (pyLower needle) (pyLower hay)

/-- Models Python `s.lstrip('#')`. -/
def lstripHash (s : String) : String :=
  ⟨s.data.dropWhile (fun c => c == '#')⟩

/-- Row of the `events` table (`models.Event`). -/
structure Event where
  id : Int
  title : String
  description : String
  location : String
  start_date : Int
  end_date : Int
  max_attendees : Int
  current_attendees : Int
  created_by : Int
  university : String
  image : String
  is_active : Bool
  tags : List String
  updated_at : Int
  deriving DecidableEq

/-- Row of the `event_attendees` table (`models.EventAttendee`). -/
structure EventAttendee where
  event_id : Int
  user_id : Int
  deriving DecidableEq

/-- Row of the `notifications` table (`models.Notification`). -/
structure Notification where
  user_id : Int
  event_id : Int
  type : String
  message : String
  deriving DecidableEq

/-- The relational store: the three tables the modelled services touch. -/
structure Store where
  events : List Event
  attendances : List EventAttendee
  notifications : List Notification
  deriving DecidableEq

/-- Models `Event.is_full`. -/
def Event.is_full (e : Event) : Bool :=
  decide (e.max_attendees ≤ e.current_attendees)

/-- Models `Event.can_register`. -/
def Event.can_register (e : Event) : Bool :=
  e.is_active && !e.is_full

/-- Conjunction of the four `CheckConstraint`s of `events.__table_args__`:
`end_date > start_date`, `max_attendees >= 1`, `current_attendees >= 0`,
`current_attendees <= max_attendees`.  Checked at commit time. -/
def Event.checkOk (e : Event) : Bool :=
  decide (e.start_date < e.end_date) && decide (1 ≤ e.max_attendees) &&
    decide (0 ≤ e.current_attendees) && decide (e.current_attendees ≤ e.max_attendees)

/-- Models `Event.query.get(event_id)` (lookup by primary key). -/
def Store.getEvent (s : Store) (event_id : Int) : Option Event :=
  s.events.find? (fun e => e.id == event_id)

/-- Writes back a mutated event row (identity by primary key). -/
def Store.setEvent (s : Store) (e : Event) : Store :=
  { s with events := s.events.map (fun x => if x.id == e.id then e else x) }

/-- Models `EventAttendee.query.filter_by(event_id=..., user_id=...).first()`. -/
def Store.findAttendance (s : Store) (event_id user_id : Int) : Option EventAttendee :=
  s.attendances.find? (fun a => a.event_id == event_id && a.user_id == user_id)

/-- Models `EventAttendee.query.filter_by(event_id=event_id).all()`. -/
def attendeesOf (s : Store) (event_id : Int) : List EventAttendee :=
  s.attendances.filter (fun a => a.event_id == event_id)

/-- Number of rows of an attendance list that belong to an event. -/
def countAttList (l : List EventAttendee) (event_id : Int) : Int :=
  ((l.filter (fun a => a.event_id == event_id)).length : Int)

/-- Number of attendance rows of an event. -/
def countAtt (s : Store) (event_id : Int) : Int :=
  countAttList s.attendances event_id

/-- A request value fed to Python `int(...)`: it either converts or raises. -/
inductive PyVal where
  | int : Int → PyVal
  | bad : PyVal
  deriving DecidableEq

/-- Models `int(v)` returning `none` when `ValueError`/`TypeError` is raised. -/
def pyInt : PyVal → Option Int
  | .int n => some n
  | .bad => none

/-- A raw date string: it either parses with `datetime.fromisoformat` or raises. -/
inductive DateStr where
  | iso : Int → DateStr
  | bad : DateStr
  deriving DecidableEq

/-- Models `datetime.fromisoformat(s.replace('Z', '+00:00'))`, `none` on `ValueError`. -/
def parseDate : DateStr → Option Int
  | .iso t => some t
  | .bad => none

/-- Request payload of `EventService.create_event` after the route's
required-field check (`title`, `description`, `location`, `start_date`,
`end_date` present); `image`, `max_attendees` and `tags` carry the
`data.get` defaults already applied (`''`, `50`, `[]`). -/
structure CreateData where
  title : String
  description : String
  location : String
  start_date : DateStr
  end_date : DateStr
  image : String
  max_attendees : PyVal
  tags : List String
  deriving DecidableEq

/-- Status, error payload and resulting session state of a service call. -/
structure SvcResult where
  status : Nat
  error : Option String
  store : Store
  deriving DecidableEq

/-- Autoincrement primary key for a fresh `events` row. -/
def nextEventId (s : Store) : Int :=
  (s.events.foldl (fun m e => max m e.id) 0) + 1

/-- Models `EventService.create_event` (services.py lines 9-48):
`int(data.get('max_attendees', 50))` (outer `ValueError` handler, 400),
date parsing (400 on `ValueError`), the `Event(...)` constructor whose
`@validates` hooks for title / description / max_attendees raise
`ValueError` (outer handler, 400), then `db.session.commit()`; a
`CheckConstraint` violation (in particular `end_date > start_date`)
raises `IntegrityError`, caught by the broad `except Exception` handler,
which rolls back and returns 500. -/
def create_event (s : Store) (user_id : Int) (d : CreateData) (now : Int) : SvcResult :=
  match pyInt d.max_attendees with
  | none => { status := 400, error := some "Invalid data format", store := s }
  | some maxA =>
    match parseDate d.start_date, parseDate d.end_date with
    | none, _ => { status := 400, error := some "Invalid date format", store := s }
    | some _, none => { status := 400, error := some "Invalid date format", store := s }
    | some sd, some ed =>
      if (pyStrip d.title).length < 3 then
        { status := 400,
          error := some "Invalid data format: Title must be at least 3 characters long",
          store := s }
      else if (pyStrip d.description).length < 10 then
        { status := 400,
          error := some "Invalid data format: Description must be at least 10 characters long",
          store := s }
      else if maxA < 1 then
        { status := 400,
          error := some "Invalid data format: Maximum attendees must be at least 1",
          store := s }
      else
        let event : Event :=
          { id := nextEventId s, title := d.title, description := d.description,
            location := d.location, start_date := sd, end_date := ed,
            max_attendees := maxA, current_attendees := 0, created_by := user_id,
            university := "Student Event Network", image := d.image,
            is_active := true, tags := d.tags, updated_at := now }
        if event.checkOk then
          { status := 201, error := none,
            store := { s with events := s.events ++ [event] } }
        else
          { status := 500, error := some "Database error", store := s }

/-- Request payload of `EventService.update_event`: `some` marks a key
present in `event_data`. -/
structure UpdateData where
  title : Option String
  description : Option String
  location : Option String
  tags : Option (List String)
  image : Option String
  max_attendees : Option PyVal
  start_date : Option DateStr
  end_date : Option DateStr
  deriving DecidableEq

/-- The `location`, `tags`, `image` assignments of the allow-list loop
(no validators attached, so these never fail). -/
def applyPlainFields (e : Event) (d : UpdateData) : Event :=
  let e1 := match d.location with | some v => { e with location := v } | none => e
  let e2 := match d.tags with | some v => { e1 with tags := v } | none => e1
  match d.image with | some v => { e2 with image := v } | none => e2

/-- Continuation of the allow-list loop after the `title` key. -/
def applyAllowedFieldsFromDescription (e : Event) (d : UpdateData) :
    Except (Event × String) Event :=
  match d.description with
  | some t =>
    if (pyStrip t).length < 10 then
      .error (e, "Description must be at least 10 characters long")
    else
      .ok (applyPlainFields { e with description := t } d)
  | none => .ok (applyPlainFields e d)

/-- Models the `for field in allowed_fields` loop of `update_event`
(services.py lines 62-65).  Each `setattr` runs the column's
`@validates` hook; a raised `ValueError` is caught by the handler at
line 110 and, since no rollback is issued, the fields assigned so far
stay applied on the session's event — the error value carries that
partially updated event. -/
def applyAllowedFields (e : Event) (d : UpdateData) : Except (Event × String) Event :=
  match d.title with
  | some t =>
    if (pyStrip t).length < 3 then
      .error (e, "Title must be at least 3 characters long")
    else
      applyAllowedFieldsFromDescription { e with title := t } d
  | none => applyAllowedFieldsFromDescription e d

/-- Models the `max_attendees` clause of `update_event` (lines 68-72):
`int(...)` failure and the `@validates('max_attendees')` hook (a value
below 1 raises `ValueError`) are both caught by the same
`except (ValueError, TypeError)` and reported as
`'Invalid max_attendees value'`; the attribute is not assigned in
either failure case. -/
def applyMaxAttendees (e : Event) (d : UpdateData) : Except (Event × String) Event :=
  match d.max_attendees with
  | none => .ok e
  | some v =>
    match pyInt v with
    | none => .error (e, "Invalid max_attendees value")
    | some k =>
      if k < 1 then .error (e, "Invalid max_attendees value")
      else .ok { e with max_attendees := k }

/-- Models the `start_date` clause of `update_event` (lines 75-80). -/
def applyStartDate (e : Event) (d : UpdateData) : Except (Event × String) Event :=
  match d.start_date with
  | none => .ok e
  | some v =>
    match parseDate v with
    | none => .error (e, "Invalid start date format")
    | some t => .ok { e with start_date := t }

/-- Models the `end_date` clause of `update_event` (lines 82-87). -/
def applyEndDate (e : Event) (d : UpdateData) : Except (Event × String) Event :=
  match d.end_date with
  | none => .ok e
  | some v =>
    match parseDate v with
    | none => .error (e, "Invalid end date format")
    | some t => .ok { e with end_date := t }

/-- The whole field-update phase of `update_event` (lines 62-87), in
source order: allow-listed fields, then `max_attendees`, then the two
dates.  On error the carried event holds every assignment made before
the failing field. -/
def applyUpdates (e : Event) (d : UpdateData) : Except (Event × String) Event :=
  match applyAllowedFields e d with
  | .error p => .error p
  | .ok e1 =>
    match applyMaxAttendees e1 d with
    | .error p => .error p
    | .ok e2 =>
      match applyStartDate e2 d with
      | .error p => .error p
      | .ok e3 => applyEndDate e3 d

/-- The `event_edited` notification row built at services.py lines 94-99. -/
def mkEditedNotification (event_id : Int) (title : String) (a : EventAttendee) : Notification :=
  { user_id := a.user_id, event_id := event_id, type := "event_edited",
    message := "The event \"" ++ title ++ "\" has been updated by the organizer." }

/-- Result of `update_event`: besides status/error/state, `committed`
records whether `db.session.commit()` ran, and `push` records the
best-effort `send_event_edit_notification(event_id, title, user_ids)`
dispatch issued after the commit. -/
structure UpdateResult where
  status : Nat
  error : Option String
  store : Store
  committed : Bool
  push : Option (Int × String × List Int)
  deriving DecidableEq

/-- Models `EventService.update_event` (services.py lines 51-114):
absent event 404; `created_by != user_id` 403; field updates with
per-field failure (400, partial assignments kept in the session, no
rollback); on success `updated_at` is stamped, one `event_edited`
Notification per attendance row of the event is added, and the commit
either persists everything (200, then push dispatch) or a constraint
violation rolls the whole transaction back (500). -/
def update_event (s : Store) (event_id user_id : Int) (d : UpdateData) (now : Int) :
    UpdateResult :=
  match s.getEvent event_id with
  | none =>
    { status := 404, error := some "Event not found", store := s,
      committed := false, push := none }
  | some event =>
    if event.created_by != user_id then
      { status := 403, error := some "Unauthorized", store := s,
        committed := false, push := none }
    else
      match applyUpdates event d with
      | .error (e1, msg) =>
        { status := 400, error := some msg, store := s.setEvent e1,
          committed := false, push := none }
      | .ok e1 =>
        let e2 := { e1 with updated_at := now }
        let attendees := attendeesOf s event_id
        let newNotifs := attendees.map (mkEditedNotification event_id e2.title)
        let s1 := s.setEvent e2
        if e2.checkOk then
          { status := 200, error := none,
            store := { s1 with notifications := s1.notifications ++ newNotifs },
            committed := true,
            push := some (event_id, e2.title, attendees.map (fun a => a.user_id)) }
        else
          { status := 500, error := some "Database error", store := s,
            committed := false, push := none }

/-- Models `EventService.register_for_event` (services.py lines 117-146):
absent or inactive event 404; `can_register()` false (active but full)
400; an existing attendance 409; otherwise the attendance row is
inserted and `current_attendees` incremented, committing atomically
(constraint violation rolls back, 500). -/
def register_for_event (s : Store) (event_id user_id : Int) : SvcResult :=
  match s.getEvent event_id with
  | none => { status := 404, error := some "Event not found or inactive", store := s }
  | some event =>
    if !event.is_active then
      { status := 404, error := some "Event not found or inactive", store := s }
    else if !event.can_register then
      { status := 400, error := some "Cannot register for this event", store := s }
    else
      match s.findAttendance event_id user_id with
      | some _ =>
        { status := 409, error := some "Already registered for this event", store := s }
      | none =>
        let e1 := { event with current_attendees := event.current_attendees + 1 }
        let s1 := s.setEvent e1
        if e1.checkOk then
          { status := 201, error := none,
            store := { s1 with
                       attendances := s1.attendances ++
                         [{ event_id := event_id, user_id := user_id }] } }
        else
          { status := 500, error := some "Database error", store := s }

/-- Models `EventService.unregister_from_event` (services.py lines
149-170): no attendance row 404; otherwise `current_attendees` is
decremented (when the event row exists) with no floor and the first
matching attendance row deleted; the commit enforces the
`current_attendees >= 0` check constraint, rolling back with 500 when
the counter would go negative. -/
def unregister_from_event (s : Store) (event_id user_id : Int) : SvcResult :=
  match s.findAttendance event_id user_id with
  | none => { status := 404, error := some "Not registered for this event", store := s }
  | some _ =>
    match s.getEvent event_id with
    | none =>
      { status := 200, error := none,
        store := { s with attendances :=
          s.attendances.eraseP (fun a => a.event_id == event_id && a.user_id == user_id) } }
    | some event =>
      let e1 := { event with current_attendees := event.current_attendees - 1 }
      let s1 := s.setEvent e1
      if e1.checkOk then
        { status := 200, error := none,
          store := { s1 with attendances :=
            s1.attendances.eraseP (fun a => a.event_id == event_id && a.user_id == user_id) } }
      else
        { status := 500, error := some "Database error", store := s }

/-- One hour in seconds (`timedelta(hours=1)`). -/
def hourSecs : Int := 3600

/-- Twenty-four hours in seconds (`timedelta(hours=24)`). -/
def daySecs : Int := 86400

/-- Models the `starting_soon_events` query of
`create_event_reminder_notifications` (services.py lines 259-263):
active events with `now <= start_date <= now + 1 hour`. -/
def startingSoonEvents (s : Store) (now : Int) : List Event :=
  s.events.filter (fun e =>
    decide (now ≤ e.start_date) && decide (e.start_date ≤ now + hourSecs) && e.is_active)

/-- Models the `upcoming_events` query (lines 266-270): active events
with `now + 1 hour <= start_date <= now + 24 hours`. -/
def upcomingEvents (s : Store) (now : Int) : List Event :=
  s.events.filter (fun e =>
    decide (now + hourSecs ≤ e.start_date) && decide (e.start_date ≤ now + daySecs) && e.is_active)

/-- Message of an `event_starting` reminder (line 290; the leading
characters reproduce the source file's literal). -/
def startingMessage (title : String) : String :=
  "ğŸš€ \"" ++ title ++ "\" is starting in 1 hour!"

/-- Message of an `event_soon` reminder (line 311). -/
def soonMessage (title : String) : String :=
  "ğŸ“… \"" ++ title ++ "\" is tomorrow! Don\x27t forget to attend."

/-- The (event, attendee, type) fanout candidates of one reminder sweep,
in the order the two nested loops of services.py lines 275-314 visit
them: all `event_starting` candidates, then all `event_soon` ones. -/
def reminderCandidates (s : Store) (now : Int) : List Notification :=
  ((startingSoonEvents s now).map (fun e =>
      (attendeesOf s e.id).map (fun a =>
        ({ user_id := a.user_id, event_id := e.id, type := "event_starting",
           message := startingMessage e.title } : Notification)))).flatten
    ++ ((upcomingEvents s now).map (fun e =>
      (attendeesOf s e.id).map (fun a =>
        ({ user_id := a.user_id, event_id := e.id, type := "event_soon",
           message := soonMessage e.title } : Notification)))).flatten

/-- The `(user_id, event_id, type)` key of the duplicate-suppression
query `Notification.query.filter_by(user_id=..., event_id=..., type=...)`. -/
def notifKey (n : Notification) : Int × Int × String :=
  (n.user_id, n.event_id, n.type)

/-- Boolean form of the duplicate-suppression lookup. -/
def notifMatches (n c : Notification) : Bool :=
  n.user_id == c.user_id && n.event_id == c.event_id && n.type == c.type

/-- One loop body of the sweep: the `existing` lookup runs against the
session (pending `session.add` rows are autoflushed by the query, so
rows added earlier in the same sweep are seen), and a missing key adds
the row and bumps `notifications_created`. -/
def addIfMissing (p : List Notification × Nat) (c : Notification) : List Notification × Nat :=
  if p.1.any (fun n => notifMatches n c) then p else (p.1 ++ [c], p.2 + 1)

/-- Models `NotificationService.create_event_reminder_notifications`
(services.py lines 248-329): returns the `notifications_created` count
and the committed store.  The trailing
`push_notification_service.send_reminder_notifications()` call touches
no store state (push_notifications.py returns a constant). -/
def create_event_reminder_notifications (s : Store) (now : Int) : Nat × Store :=
  let p := (reminderCandidates s now).foldl addIfMissing (s.notifications, 0)
  (p.2, { s with notifications := p.1 })

/-- Filter parameters of `EventQueryService.get_events_with_filters` as
built by the `GET /api/events` route; `none` models an absent key and
the tag list models the comma-split of the raw `tags` query string. -/
structure Filters where
  tags : Option (List String)
  search : Option String
  start_date_after : Option DateStr
  end_date_before : Option DateStr
  deriving DecidableEq

/-- Result of the query service: an event list, or `400 Invalid date format`. -/
inductive QueryResult where
  | ok : List Event → QueryResult
  | err : Nat → String → QueryResult
  deriving DecidableEq

/-- Models the per-event tag test of services.py lines 363-377 (list
branch): the event qualifies when any requested tag, lowercased, equals
one of the event's lowercased tags. -/
def tagFilterMatches (user_tags : List String) (e : Event) : Bool :=
  !e.tags.isEmpty && user_tags.any (fun ut => (e.tags.map pyLower).contains (pyLower ut))

/-- Models the `title ILIKE '%term%' OR description ILIKE '%term%'`
filter of lines 400-403 (the raw term, `#` included). -/
def searchTitleDesc (q : String) (e : Event) : Bool :=
  ilikeContains e.title q || ilikeContains e.description q

/-- Models the tag-search loop of lines 410-418 (list branch): some
nonempty tag contains `search.lstrip('#').lower()` as a substring. -/
def searchTags (q : String) (e : Event) : Bool :=
  let tag_search_term := pyLower (lstripHash q)
  e.tags.any (fun tag => !(tag == "") && pyIn tag_search_term (pyLower tag))

/-- The `seen_ids` de-duplication loop of services.py lines 428-434. -/
def dedupById : List Event → List Int → List Event
  | [], _ => []
  | e :: rest, seen =>
    if seen.contains e.id then dedupById rest seen
    else e :: dedupById rest (e.id :: seen)

/-- Ordering used by the final `order_by(Event.start_date.asc())`. -/
def eventLE (a b : Event) : Prop :=
  a.start_date ≤ b.start_date

instance : DecidableRel eventLE := fun a b => inferInstanceAs (Decidable (a.start_date ≤ b.start_date))

instance : IsTotal Event eventLE := ⟨fun a b => le_total a.start_date b.start_date⟩

instance : IsTrans Event eventLE := ⟨fun _ _ _ h1 h2 => le_trans h1 h2⟩

/-- Models `EventQueryService.get_events_with_filters` (services.py
lines 347-467): base query of active events; optional tag narrowing
(re-queried by the matched ids, with `Event.id == -1` as the empty
sentinel); optional search narrowing (title/description ILIKE union
tag-substring matches, de-duplicated by id, same sentinel); optional
inclusive date-range bounds (a parse failure returns 400); finally
ordered ascending by `start_date`. -/
def get_events_with_filters (s : Store) (f : Filters) : QueryResult :=
  let q0 := s.events.filter (fun e => e.is_active)
  let q1 :=
    match f.tags with
    | none => q0
    | some user_tags =>
      if user_tags.isEmpty then q0
      else
        let matching := q0.filter (tagFilterMatches user_tags)
        if matching.isEmpty then s.events.filter (fun e => e.id == -1)
        else
          let ids := matching.map Event.id
          s.events.filter (fun e => ids.contains e.id && e.is_active)
  let q2 :=
    match f.search with
    | none => q1
    | some q =>
      if q == "" then q1
      else
        let title_desc_events := q1.filter (searchTitleDesc q)
        let tag_matching_events := q1.filter (searchTags q)
        let all_matching_events := dedupById (title_desc_events ++ tag_matching_events) []
        if all_matching_events.isEmpty then s.events.filter (fun e => e.id == -1)
        else
          let ids := all_matching_events.map Event.id
          s.events.filter (fun e => ids.contains e.id && e.is_active)
  let q3 :=
    match f.start_date_after with
    | none => Except.ok q2
    | some ds =>
      match parseDate ds with
      | none => Except.error ()
      | some t => Except.ok (q2.filter (fun e => decide (t ≤ e.start_date)))
  let q4 :=
    match q3 with
    | .error _ => Except.error ()
    | .ok l =>
      match f.end_date_before with
      | none => Except.ok l
      | some ds =>
        match parseDate ds with
        | none => Except.error ()
        | some t => Except.ok (l.filter (fun e => decide (e.end_date ≤ t)))
  match q4 with
  | .error _ => .err 400 "Invalid date format"
  | .ok l => .ok (List.insertionSort eventLE l)

/-- One attendance-manager call for the register/unregister sequences
of the capacity invariant. -/
inductive Call where
  | register : Int → Int → Call
  | unregister : Int → Int → Call
  deriving DecidableEq

/-- State transition of one call (response discarded). -/
def stepCall (s : Store) (c : Call) : Store :=
  match c with
  | .register e u => (register_for_event s e u).store
  | .unregister e u => (unregister_from_event s e u).store

/-- Runs a sequence of register/unregister calls sequentially. -/
def runCalls (s : Store) (cs : List Call) : Store :=
  cs.foldl stepCall s


/-- Evaluation of `update_event` on the success path: event found,
requester is the creator, every field applies, commit passes the check
constraints. -/
theorem update_event_success_eq (s : Store) (event_id user_id : Int) (d : UpdateData)
    (now : Int) (e e1 : Event)
    (hget : s.getEvent event_id = some e) (hauth : (e.created_by != user_id) = false)
    (happ : applyUpdates e d = .ok e1)
    (hchk : ({ e1 with updated_at := now } : Event).checkOk = true) :
    update_event s event_id user_id d now =
      { status := 200, error := none,
        store :=
          { events := (s.setEvent { e1 with updated_at := now }).events,
            attendances := s.attendances,
            notifications := s.notifications ++
              (attendeesOf s event_id).map (mkEditedNotification event_id e1.title) },
        committed := true,
        push := some (event_id, e1.title, (attendeesOf s event_id).map (fun a => a.user_id)) } := by
  simp [update_event, hget, hauth, happ, hchk, Store.setEvent]

/-- A 200 from `update_event` only arises on the success path, and then
the result has the success shape. -/
theorem update_event_success_shape (s : Store) (event_id user_id : Int) (d : UpdateData)
    (now : Int) (h200 : (update_event s event_id user_id d now).status = 200) :
    ∃ e e1, s.getEvent event_id = some e ∧ (e.created_by != user_id) = false ∧
      applyUpdates e d = .ok e1 ∧
      ({ e1 with updated_at := now } : Event).checkOk = true ∧
      update_event s event_id user_id d now =
        { status := 200, error := none,
          store :=
            { events := (s.setEvent { e1 with updated_at := now }).events,
              attendances := s.attendances,
              notifications := s.notifications ++
                (attendeesOf s event_id).map (mkEditedNotification event_id e1.title) },
          committed := true,
          push := some (event_id, e1.title,
            (attendeesOf s event_id).map (fun a => a.user_id)) } := by
  cases hget : s.getEvent event_id with
  | none => simp [update_event, hget] at h200
  | some e =>
    by_cases hauth : (e.created_by != user_id) = true
    · simp [update_event, hget, hauth] at h200
    · have hauth2 : (e.created_by != user_id) = false := by simpa using hauth
      cases happ : applyUpdates e d with
      | error p =>
        obtain ⟨e1, msg⟩ := p
        simp [update_event, hget, hauth2, happ] at h200
      | ok e1 =>
        by_cases hchk : ({ e1 with updated_at := now } : Event).checkOk = true
        · exact ⟨e, e1, rfl, hauth2, happ,
            hchk, update_event_success_eq s event_id user_id d now e e1 hget hauth2 happ hchk⟩
        · have hchk2 : ({ e1 with updated_at := now } : Event).checkOk = false := by
            simpa using hchk
          simp [update_event, hget, hauth2, happ, hchk2] at h200

/-- The plain allow-listed assignments do not touch `is_active`. -/
theorem applyPlainFields_is_active (e : Event) (d : UpdateData) :
    (applyPlainFields e d).is_active = e.is_active := by
  cases hl : d.location <;> cases ht : d.tags <;> cases hi : d.image <;>
    simp [applyPlainFields, hl, ht, hi]

/-- Continuation of the allow-list loop does not touch `is_active`. -/
theorem applyAllowedFieldsFromDescription_is_active (e : Event) (d : UpdateData) (e1 : Event)
    (h : applyAllowedFieldsFromDescription e d = .ok e1) : e1.is_active = e.is_active := by
  unfold applyAllowedFieldsFromDescription at h
  cases hd : d.description
  · simp only [hd] at h
    injection h with h
    rw [← h]
    exact applyPlainFields_is_active e d
  case some t =>
    simp only [hd] at h
    by_cases hlen : (pyStrip t).length < 10
    · rw [if_pos hlen] at h
      exact absurd h (by simp)
    · rw [if_neg hlen] at h
      injection h with h
      rw [← h]
      exact applyPlainFields_is_active _ d

/-- The allow-listed field loop does not touch `is_active`. -/
theorem applyAllowedFields_is_active (e : Event) (d : UpdateData) (e1 : Event)
    (h : applyAllowedFields e d = .ok e1) : e1.is_active = e.is_active := by
  unfold applyAllowedFields at h
  cases ht : d.title
  · simp only [ht] at h
    exact applyAllowedFieldsFromDescription_is_active e d e1 h
  case some t =>
    simp only [ht] at h
    by_cases hlen : (pyStrip t).length < 3
    · rw [if_pos hlen] at h
      exact absurd h (by simp)
    · rw [if_neg hlen] at h
      exact applyAllowedFieldsFromDescription_is_active { e with title := t } d e1 h

/-- The `max_attendees` clause does not touch `is_active`. -/
theorem applyMaxAttendees_is_active (e : Event) (d : UpdateData) (e1 : Event)
    (h : applyMaxAttendees e d = .ok e1) : e1.is_active = e.is_active := by
  unfold applyMaxAttendees at h
  cases hm : d.max_attendees
  · simp only [hm] at h
    injection h with h
    rw [← h]
  case some v =>
    simp only [hm] at h
    cases hv : pyInt v
    · simp only [hv] at h
      exact absurd h (by simp)
    case some k =>
      simp only [hv] at h
      by_cases hk : k < 1
      · rw [if_pos hk] at h
        exact absurd h (by simp)
      · rw [if_neg hk] at h
        injection h with h
        rw [← h]

/-- The `start_date` clause does not touch `is_active`. -/
theorem applyStartDate_is_active (e : Event) (d : UpdateData) (e1 : Event)
    (h : applyStartDate e d = .ok e1) : e1.is_active = e.is_active := by
  unfold applyStartDate at h
  cases hm : d.start_date
  · simp only [hm] at h
    injection h with h
    rw [← h]
  case some v =>
    simp only [hm] at h
    cases hv : parseDate v
    · simp only [hv] at h
      exact absurd h (by simp)
    · simp only [hv] at h
      injection h with h
      rw [← h]

/-- The `end_date` clause does not touch `is_active`. -/
theorem applyEndDate_is_active (e : Event) (d : UpdateData) (e1 : Event)
    (h : applyEndDate e d = .ok e1) : e1.is_active = e.is_active := by
  unfold applyEndDate at h
  cases hm : d.end_date
  · simp only [hm] at h
    injection h with h
    rw [← h]
  case some v =>
    simp only [hm] at h
    cases hv : parseDate v
    · simp only [hv] at h
      exact absurd h (by simp)
    · simp only [hv] at h
      injection h with h
      rw [← h]

/-- The whole field-update phase leaves `is_active` unchanged: the
allow-list never contains the soft-delete flag. -/
theorem applyUpdates_is_active (e : Event) (d : UpdateData) (e1 : Event)
    (h : applyUpdates e d = .ok e1) : e1.is_active = e.is_active := by
  unfold applyUpdates at h
  cases h1 : applyAllowedFields e d
  · simp only [h1] at h
    exact absurd h (by simp)
  case ok a =>
    simp only [h1] at h
    cases h2 : applyMaxAttendees a d
    · simp only [h2] at h
      exact absurd h (by simp)
    case ok b =>
      simp only [h2] at h
      cases h3 : applyStartDate b d
      · simp only [h3] at h
        exact absurd h (by simp)
      case ok c =>
        simp only [h3] at h
        calc e1.is_active = c.is_active := applyEndDate_is_active c d e1 h
          _ = b.is_active := applyStartDate_is_active b d c h3
          _ = a.is_active := applyMaxAttendees_is_active a d b h2
          _ = e.is_active := applyAllowedFields_is_active e d a h1

/-! ### Claim C9: capacity is checked before the duplicate-registration check -/

/-- C9.  `register_for_event` evaluates `can_register()` before querying
for an existing attendance: for an active event at (or over) capacity
the call returns the 400 capacity rejection even when the caller already
has an attendance row, and the 409 conflict is reachable only when the
event is active and strictly below capacity. -/
theorem register_capacity_before_conflict (s : Store) (event_id user_id : Int) :
    (∀ e, s.getEvent event_id = some e → e.is_active = true →
      e.max_attendees ≤ e.current_attendees →
      (register_for_event s event_id user_id).status = 400 ∧
      (register_for_event s event_id user_id).error = some "Cannot register for this event") ∧
    ((register_for_event s event_id user_id).status = 409 →
      ∃ e, s.getEvent event_id = some e ∧ e.is_active = true ∧
        e.current_attendees < e.max_attendees) := by
  constructor
  · intro e hget hact hfull
    have hcr : e.can_register = false := by
      simp [Event.can_register, Event.is_full, hact, hfull]
    constructor <;> simp [register_for_event, hget, hact, hcr]
  · intro h409
    cases hget : s.getEvent event_id with
    | none => simp [register_for_event, hget] at h409
    | some e =>
      by_cases hact : e.is_active = true
      · by_cases hfull : e.current_attendees < e.max_attendees
        · exact ⟨e, rfl, hact, hfull⟩
        · have hcr : e.can_register = false := by
            simp [Event.can_register, Event.is_full, hact]
            omega
          simp [register_for_event, hget, hact, hcr] at h409
      · have hact2 : e.is_active = false := by
          simpa using hact
        simp [register_for_event, hget, hact2] at h409

/-- Store with one full active event (capacity 2, two attendees), user 1
already registered. -/
def sFull : Store :=
  { events := [{ id := 1, title := "Career Fair", description := "Meet the companies here",
                 location := "Hall A", start_date := 100, end_date := 200,
                 max_attendees := 2, current_attendees := 2, created_by := 7,
                 university := "Student Event Network", image := "", is_active := true,
                 tags := ["career"], updated_at := 0 }],
    attendances := [{ event_id := 1, user_id := 1 }, { event_id := 1, user_id := 2 }],
    notifications := [] }

/-- Witness for C9: on `sFull`, user 1 (already registered) gets the 400
capacity rejection, not the 409 conflict. -/
theorem register_capacity_before_conflict_witness :
    (register_for_event sFull 1 1).status = 400 ∧
    (register_for_event sFull 1 1).error = some "Cannot register for this event" :=
  (register_capacity_before_conflict sFull 1 1).1
    { id := 1, title := "Career Fair", description := "Meet the companies here",
      location := "Hall A", start_date := 100, end_date := 200,
      max_attendees := 2, current_attendees := 2, created_by := 7,
      university := "Student Event Network", image := "", is_active := true,
      tags := ["career"], updated_at := 0 }
    (by decide) (by decide) (by decide)

/-! ### Claim C5: unregister semantics (no floor at zero) -/

/-- Store whose event has a drifted counter: an attendance row exists for
user 1 but `current_attendees` is already 0. -/
def sDrifted : Store :=
  { events := [{ id := 1, title := "Study Group", description := "Weekly study group meetup",
                 location := "Library", start_date := 100, end_date := 200,
                 max_attendees := 5, current_attendees := 0, created_by := 7,
                 university := "Student Event Network", image := "", is_active := true,
                 tags := [], updated_at := 0 }],
    attendances := [{ event_id := 1, user_id := 1 }],
    notifications := [] }

/-- Counterexample to C5.  The claim asserts that on success the
decrement is floored at 0; the code has no floor: with the counter
already 0 and an attendance row present, the decrement to -1 violates
the `current_attendees >= 0` check constraint, so instead of a success
that keeps the counter at 0, the call fails with a 500 database error,
the attendance row is kept and the store is unchanged. -/
theorem unregister_no_floor_counterexample :
    (unregister_from_event sDrifted 1 1).status = 500 ∧
    (unregister_from_event sDrifted 1 1).error = some "Database error" ∧
    (unregister_from_event sDrifted 1 1).store = sDrifted := by
  refine ⟨?_, ?_, ?_⟩ <;> decide

/-- C5 as amended.  `unregister_from_event` returns 404 when no
attendance row exists; when one exists and the event row is found, the
counter is decremented by exactly one with no floor: if the decremented
row passes the check constraints the call succeeds (200) deleting the
attendance row, and if `current_attendees` was already 0 the commit
fails on `current_attendees >= 0`, returning 500 with the transaction
rolled back. -/
theorem unregister_not_found_and_decrement (s : Store) (event_id user_id : Int) :
    (s.findAttendance event_id user_id = none →
      unregister_from_event s event_id user_id =
        { status := 404, error := some "Not registered for this event", store := s }) ∧
    (∀ a e, s.findAttendance event_id user_id = some a →
      s.getEvent event_id = some e → e.current_attendees = 0 →
      (unregister_from_event s event_id user_id).status = 500 ∧
      (unregister_from_event s event_id user_id).store = s) ∧
    (∀ a e, s.findAttendance event_id user_id = some a →
      s.getEvent event_id = some e →
      ({ e with current_attendees := e.current_attendees - 1 } : Event).checkOk = true →
      unregister_from_event s event_id user_id =
        { status := 200, error := none,
          store :=
            { events := (s.setEvent
                { e with current_attendees := e.current_attendees - 1 }).events,
              attendances := s.attendances.eraseP
                (fun a => a.event_id == event_id && a.user_id == user_id),
              notifications := s.notifications } }) := by
  refine ⟨?_, ?_, ?_⟩
  · intro hnone
    simp [unregister_from_event, hnone]
  · intro a e hfind hget hcur
    have hchk : ({ e with current_attendees := e.current_attendees - 1 } : Event).checkOk
        = false := by
      simp [Event.checkOk, hcur]
    constructor <;> simp [unregister_from_event, hfind, hget, hchk]
  · intro a e hfind hget hchk
    simp [unregister_from_event, hfind, hget, hchk, Store.setEvent]

/-- Witness for the amended C5: both failure conjuncts and the success
conjunct instantiated on concrete stores. -/
theorem unregister_not_found_and_decrement_witness :
    unregister_from_event sDrifted 1 2 =
      { status := 404, error := some "Not registered for this event", store := sDrifted } ∧
    (unregister_from_event sDrifted 1 1).status = 500 ∧
    (unregister_from_event sDrifted 1 1).store = sDrifted :=
  ⟨(unregister_not_found_and_decrement sDrifted 1 2).1 (by decide),
   (unregister_not_found_and_decrement sDrifted 1 1).2.1
     { event_id := 1, user_id := 1 }
     { id := 1, title := "Study Group", description := "Weekly study group meetup",
       location := "Library", start_date := 100, end_date := 200,
       max_attendees := 5, current_attendees := 0, created_by := 7,
       university := "Student Event Network", image := "", is_active := true,
       tags := [], updated_at := 0 }
     (by decide) (by decide) (by decide)⟩

/-! ### Claim C4: creating an event with end_date <= start_date -/

/-- An otherwise valid creation payload whose parsed dates coincide. -/
def dBadDates : CreateData :=
  { title := "Spring Gala", description := "The big spring gala night",
    location := "Great Hall", start_date := DateStr.iso 100, end_date := DateStr.iso 100,
    image := "", max_attendees := PyVal.int 50, tags := ["party"] }

/-- Empty initial store. -/
def sEmpty : Store :=
  { events := [], attendances := [], notifications := [] }

/-- Counterexample to C4.  The claim says a call with
`end_date <= start_date` fails with a user-correctable validation error
(a 400-class response); the service has no such pre-write check — the
write is rejected only by the `end_date > start_date` check constraint
at commit, surfaced by the broad exception handler as a 500 database
error.  No row is written, but the error kind is wrong. -/
theorem create_event_end_before_start_counterexample :
    (create_event sEmpty 7 dBadDates 0).status = 500 ∧
    (create_event sEmpty 7 dBadDates 0).status ≠ 400 ∧
    (create_event sEmpty 7 dBadDates 0).store = sEmpty := by
  refine ⟨?_, ?_, ?_⟩ <;> decide

/-- C4 as amended.  A creation whose parsed `end_date` is at or before
its parsed `start_date` never writes an Event row and never succeeds;
when the remaining fields are valid the failure is the 500 database
error from the `end_date > start_date` check constraint, not a
validation error. -/
theorem create_event_rejects_end_before_start (s : Store) (user_id : Int) (d : CreateData)
    (now t1 t2 : Int)
    (h1 : parseDate d.start_date = some t1) (h2 : parseDate d.end_date = some t2)
    (hle : t2 ≤ t1) :
    (create_event s user_id d now).store = s ∧
    (create_event s user_id d now).status ≠ 201 ∧
    (∀ m, pyInt d.max_attendees = some m → 1 ≤ m →
      3 ≤ (pyStrip d.title).length → 10 ≤ (pyStrip d.description).length →
      (create_event s user_id d now).status = 500) := by
  have hlt : ¬ (t1 < t2) := by omega
  cases hm : pyInt d.max_attendees with
  | none =>
    refine ⟨by simp [create_event, hm], by simp [create_event, hm], ?_⟩
    intro m hm' _ _ _
    exact Option.noConfusion hm'
  | some m =>
    by_cases ht : (pyStrip d.title).length < 3
    · refine ⟨by simp [create_event, hm, h1, h2, ht],
        by simp [create_event, hm, h1, h2, ht], ?_⟩
      intro m' _ _ ht' _
      omega
    · by_cases hd : (pyStrip d.description).length < 10
      · refine ⟨by simp [create_event, hm, h1, h2, ht, hd],
          by simp [create_event, hm, h1, h2, ht, hd], ?_⟩
        intro m' _ _ _ hd'
        omega
      · by_cases hm1 : m < 1
        · refine ⟨by simp [create_event, hm, h1, h2, ht, hd, hm1],
            by simp [create_event, hm, h1, h2, ht, hd, hm1], ?_⟩
          intro m' hm' h1m _ _
          injection hm' with hm'
          omega
        · refine ⟨?_, ?_, ?_⟩
          · simp [create_event, hm, h1, h2, ht, hd, hm1, Event.checkOk, hlt]
          · simp [create_event, hm, h1, h2, ht, hd, hm1, Event.checkOk, hlt]
          · intro m' _ _ _ _
            simp [create_event, hm, h1, h2, ht, hd, hm1, Event.checkOk, hlt]

/-- Witness for the amended C4 at the concrete bad-dates payload. -/
theorem create_event_rejects_end_before_start_witness :
    (create_event sEmpty 7 dBadDates 0).store = sEmpty ∧
    (create_event sEmpty 7 dBadDates 0).status ≠ 201 ∧
    (∀ m, pyInt dBadDates.max_attendees = some m → 1 ≤ m →
      3 ≤ (pyStrip dBadDates.title).length → 10 ≤ (pyStrip dBadDates.description).length →
      (create_event sEmpty 7 dBadDates 0).status = 500) :=
  create_event_rejects_end_before_start sEmpty 7 dBadDates 0 100 100
    (by decide) (by decide) (by decide)

/-! ### Claim C2: event_edited fanout and (absence of) de-duplication -/

/-- Store with one valid active event owned by user 7 and two attendees. -/
def sTwoAtt : Store :=
  { events := [{ id := 1, title := "Spring Party", description := "A fun party for everyone",
                 location := "Main Hall", start_date := 100, end_date := 200,
                 max_attendees := 50, current_attendees := 2, created_by := 7,
                 university := "Student Event Network", image := "", is_active := true,
                 tags := ["Music", "party"], updated_at := 0 }],
    attendances := [{ event_id := 1, user_id := 10 }, { event_id := 1, user_id := 11 }],
    notifications := [] }

/-- A valid update payload touching only the description. -/
def dDescOnly : UpdateData :=
  { title := none, description := some "An updated fun party", location := none,
    tags := none, image := none, max_attendees := none,
    start_date := none, end_date := none }

/-- Counterexample to C2's no-duplicates half.  `update_event` emits the
`event_edited` rows unconditionally (no per-attendee existence check),
so two successful edits of an event with two attendees leave each
attendee with two `event_edited` notifications, not at most one. -/
theorem update_event_duplicates_counterexample :
    (update_event sTwoAtt 1 7 dDescOnly 5).status = 200 ∧
    (update_event (update_event sTwoAtt 1 7 dDescOnly 5).store 1 7 dDescOnly 6).status = 200 ∧
    ((update_event (update_event sTwoAtt 1 7 dDescOnly 5).store 1 7 dDescOnly 6).store.notifications.filter
        (fun n => n.user_id == 10 && n.event_id == 1 && n.type == "event_edited")).length = 2 := by
  refine ⟨?_, ?_, ?_⟩ <;> decide

/-- C2 as amended.  Every successful `update_event` call appends exactly
one fresh `event_edited` Notification per attendance row of the event —
N rows for N attendees — but the rows are appended unconditionally, so
repeated edits accumulate duplicates (see the counterexample). -/
theorem update_event_notifies_each_attendee (s : Store) (event_id user_id : Int)
    (d : UpdateData) (now : Int)
    (h200 : (update_event s event_id user_id d now).status = 200) :
    ∃ t, (update_event s event_id user_id d now).store.notifications =
        s.notifications ++ (attendeesOf s event_id).map (mkEditedNotification event_id t) ∧
      (update_event s event_id user_id d now).store.notifications.length =
        s.notifications.length + (attendeesOf s event_id).length := by
  obtain ⟨e, e1, -, -, -, -, heq⟩ := update_event_success_shape s event_id user_id d now h200
  refine ⟨e1.title, ?_, ?_⟩
  · rw [heq]
  · rw [heq]
    simp

/-- Witness for the amended C2 on the two-attendee store. -/
theorem update_event_notifies_each_attendee_witness :
    ∃ t, (update_event sTwoAtt 1 7 dDescOnly 5).store.notifications =
        sTwoAtt.notifications ++ (attendeesOf sTwoAtt 1).map (mkEditedNotification 1 t) ∧
      (update_event sTwoAtt 1 7 dDescOnly 5).store.notifications.length =
        sTwoAtt.notifications.length + (attendeesOf sTwoAtt 1).length :=
  update_event_notifies_each_attendee sTwoAtt 1 7 dDescOnly 5 (by decide)

/-! ### Claim C3: partial field application before a field-specific failure -/

/-- An update payload with a valid new title and a malformed
`max_attendees` value. -/
def dBadMax : UpdateData :=
  { title := some "New valid title", description := none, location := none,
    tags := none, image := none, max_attendees := some PyVal.bad,
    start_date := none, end_date := none }

/-- Counterexample to C3.  The claim says valid allow-listed fields in
the same request are not partially applied before the field-specific
failure; the code applies the allow-listed fields first and returns the
`max_attendees` error without rolling back, so the session's event
already carries the new title when the 400 is reported. -/
theorem update_event_partial_apply_counterexample :
    (update_event sTwoAtt 1 7 dBadMax 5).status = 400 ∧
    (update_event sTwoAtt 1 7 dBadMax 5).error = some "Invalid max_attendees value" ∧
    (sTwoAtt.getEvent 1).map Event.title = some "Spring Party" ∧
    ((update_event sTwoAtt 1 7 dBadMax 5).store.getEvent 1).map Event.title =
      some "New valid title" := by
  refine ⟨?_, ?_, ?_, ?_⟩ <;> decide

/-- An update payload with a valid new title and a malformed
`start_date` string. -/
def dBadStart : UpdateData :=
  { title := some "New valid title", description := none, location := none,
    tags := none, image := none, max_attendees := none,
    start_date := some DateStr.bad, end_date := none }

/-- The event row of `sTwoAtt`. -/
def eSpring : Event :=
  { id := 1, title := "Spring Party", description := "A fun party for everyone",
    location := "Main Hall", start_date := 100, end_date := 200,
    max_attendees := 50, current_attendees := 2, created_by := 7,
    university := "Student Event Network", image := "", is_active := true,
    tags := ["Music", "party"], updated_at := 0 }

/-- The event row of `sTwoAtt` with the new title applied. -/
def eNewTitle : Event :=
  { eSpring with title := "New valid title" }

/-- C3 as amended.  When the field map carries a malformed value — a
`max_attendees` that `int()` rejects or that the validator refuses
(below 1), a malformed `start_date`, or a malformed `end_date` — the
call fails with that field's specific error and commits nothing, but
every field earlier in the update order (the allow-listed title /
description / location / tags / image, and for the date failures also a
valid `max_attendees` and, for `end_date`, a valid `start_date`) has
already been applied to the session's event when the failure is
reported. -/
theorem update_event_partial_apply_on_bad_field (s : Store) (event_id user_id : Int)
    (d : UpdateData) (now : Int) (e e1 : Event)
    (hget : s.getEvent event_id = some e) (hauth : (e.created_by != user_id) = false)
    (happ : applyAllowedFields e d = .ok e1) :
    (∀ v, d.max_attendees = some v →
      (pyInt v = none ∨ ∃ k, pyInt v = some k ∧ k < 1) →
      update_event s event_id user_id d now =
        { status := 400, error := some "Invalid max_attendees value",
          store := s.setEvent e1, committed := false, push := none }) ∧
    (∀ e2 v, applyMaxAttendees e1 d = .ok e2 →
      d.start_date = some v → parseDate v = none →
      update_event s event_id user_id d now =
        { status := 400, error := some "Invalid start date format",
          store := s.setEvent e2, committed := false, push := none }) ∧
    (∀ e2 e3 v, applyMaxAttendees e1 d = .ok e2 → applyStartDate e2 d = .ok e3 →
      d.end_date = some v → parseDate v = none →
      update_event s event_id user_id d now =
        { status := 400, error := some "Invalid end date format",
          store := s.setEvent e3, committed := false, push := none }) := by
  refine ⟨?_, ?_, ?_⟩
  · intro v hv hbad
    have hmax : applyMaxAttendees e1 d = .error (e1, "Invalid max_attendees value") := by
      rcases hbad with h | ⟨k, hk, hklt⟩
      · simp [applyMaxAttendees, hv, h]
      · simp [applyMaxAttendees, hv, hk, hklt]
    have happ2 : applyUpdates e d = .error (e1, "Invalid max_attendees value") := by
      simp [applyUpdates, happ, hmax]
    simp [update_event, hget, hauth, happ2]
  · intro e2 v hmax2 hv hparse
    have hstart : applyStartDate e2 d = .error (e2, "Invalid start date format") := by
      simp [applyStartDate, hv, hparse]
    have happ2 : applyUpdates e d = .error (e2, "Invalid start date format") := by
      simp [applyUpdates, happ, hmax2, hstart]
    simp [update_event, hget, hauth, happ2]
  · intro e2 e3 v hmax2 hstart2 hv hparse
    have hend : applyEndDate e3 d = .error (e3, "Invalid end date format") := by
      simp [applyEndDate, hv, hparse]
    have happ2 : applyUpdates e d = .error (e3, "Invalid end date format") := by
      simp [applyUpdates, happ, hmax2, hstart2, hend]
    simp [update_event, hget, hauth, happ2]

/-- Witness for the amended C3: the bad-`max_attendees` payload and the
bad-`start_date` payload both fail with their field-specific error while
the valid new title is already applied to the session's event. -/
theorem update_event_partial_apply_on_bad_field_witness :
    update_event sTwoAtt 1 7 dBadMax 5 =
      { status := 400, error := some "Invalid max_attendees value",
        store := sTwoAtt.setEvent eNewTitle, committed := false, push := none } ∧
    update_event sTwoAtt 1 7 dBadStart 5 =
      { status := 400, error := some "Invalid start date format",
        store := sTwoAtt.setEvent eNewTitle, committed := false, push := none } :=
  ⟨(update_event_partial_apply_on_bad_field sTwoAtt 1 7 dBadMax 5 eSpring eNewTitle
      (by decide) (by decide) (by rfl)).1 PyVal.bad (by decide) (Or.inl (by decide)),
   (update_event_partial_apply_on_bad_field sTwoAtt 1 7 dBadStart 5 eSpring eNewTitle
      (by decide) (by decide) (by rfl)).2.1 eNewTitle DateStr.bad (by rfl)
     (by decide) (by decide)⟩

/-! ### Claim C10: update_event does not require the event to be active -/

/-- C10.  `update_event` never consults `is_active`: it returns 404
exactly when no event row with the given id exists, and a soft-deleted
event (`is_active = false`) is updated by its creator exactly like an
active one — fields mutated, one `event_edited` notification per
remaining attendee, push dispatch included — with the event still
inactive afterwards. -/
theorem update_event_ignores_is_active (s : Store) (event_id user_id : Int)
    (d : UpdateData) (now : Int) :
    ((s.getEvent event_id = none →
        (update_event s event_id user_id d now).status = 404 ∧
        (update_event s event_id user_id d now).store = s) ∧
      ((update_event s event_id user_id d now).status = 404 →
        s.getEvent event_id = none)) ∧
    (∀ e e1, s.getEvent event_id = some e → e.is_active = false →
      e.created_by = user_id →
      applyUpdates e d = Except.ok e1 →
      ({ e1 with updated_at := now } : Event).checkOk = true →
      update_event s event_id user_id d now =
        { status := 200, error := none,
          store :=
            { events := (s.setEvent { e1 with updated_at := now }).events,
              attendances := s.attendances,
              notifications := s.notifications ++
                (attendeesOf s event_id).map (mkEditedNotification event_id e1.title) },
          committed := true,
          push := some (event_id, e1.title,
            (attendeesOf s event_id).map (fun a => a.user_id)) } ∧
      e1.is_active = false) := by
  refine ⟨⟨?_, ?_⟩, ?_⟩
  · intro hnone
    constructor <;> simp [update_event, hnone]
  · intro h404
    cases hget : s.getEvent event_id with
    | none => rfl
    | some e =>
      exfalso
      by_cases hauth : (e.created_by != user_id) = true
      · simp [update_event, hget, hauth] at h404
      · have hauth2 : (e.created_by != user_id) = false := by simpa using hauth
        cases happ : applyUpdates e d with
        | error p =>
          obtain ⟨e1, msg⟩ := p
          simp [update_event, hget, hauth2, happ] at h404
        | ok e1 =>
          by_cases hchk : ({ e1 with updated_at := now } : Event).checkOk = true
          · simp [update_event, hget, hauth2, happ, hchk] at h404
          · have hchk2 : ({ e1 with updated_at := now } : Event).checkOk = false := by
              simpa using hchk
            simp [update_event, hget, hauth2, happ, hchk2] at h404
  · intro e e1 hget hinact hcr happ hchk
    have hauth : (e.created_by != user_id) = false := by simp [hcr]
    exact ⟨update_event_success_eq s event_id user_id d now e e1 hget hauth happ hchk,
      (applyUpdates_is_active e d e1 happ).trans hinact⟩

/-- Store holding a soft-deleted event with one remaining attendee. -/
def sDeleted : Store :=
  { events := [{ id := 1, title := "Cancelled Mixer", description := "A mixer that was deleted",
                 location := "Lounge", start_date := 100, end_date := 200,
                 max_attendees := 50, current_attendees := 1, created_by := 7,
                 university := "Student Event Network", image := "", is_active := false,
                 tags := [], updated_at := 0 }],
    attendances := [{ event_id := 1, user_id := 10 }],
    notifications := [] }

/-- Witness for C10: updating the soft-deleted event succeeds, notifies
the remaining attendee and keeps the event inactive. -/
theorem update_event_ignores_is_active_witness :
    update_event sDeleted 1 7 dDescOnly 5 =
      { status := 200, error := none,
        store :=
          { events := (sDeleted.setEvent
              { id := 1, title := "Cancelled Mixer", description := "An updated fun party",
                location := "Lounge", start_date := 100, end_date := 200,
                max_attendees := 50, current_attendees := 1, created_by := 7,
                university := "Student Event Network", image := "", is_active := false,
                tags := [], updated_at := 5 }).events,
            attendances := sDeleted.attendances,
            notifications := sDeleted.notifications ++
              (attendeesOf sDeleted 1).map (mkEditedNotification 1 "Cancelled Mixer") },
        committed := true,
        push := some (1, "Cancelled Mixer",
          (attendeesOf sDeleted 1).map (fun a => a.user_id)) } ∧
    ({ id := 1, title := "Cancelled Mixer", description := "An updated fun party",
       location := "Lounge", start_date := 100, end_date := 200,
       max_attendees := 50, current_attendees := 1, created_by := 7,
       university := "Student Event Network", image := "", is_active := false,
       tags := [], updated_at := 0 } : Event).is_active = false :=
  (update_event_ignores_is_active sDeleted 1 7 dDescOnly 5).2
    { id := 1, title := "Cancelled Mixer", description := "A mixer that was deleted",
      location := "Lounge", start_date := 100, end_date := 200,
      max_attendees := 50, current_attendees := 1, created_by := 7,
      university := "Student Event Network", image := "", is_active := false,
      tags := [], updated_at := 0 }
    { id := 1, title := "Cancelled Mixer", description := "An updated fun party",
      location := "Lounge", start_date := 100, end_date := 200,
      max_attendees := 50, current_attendees := 1, created_by := 7,
      university := "Student Event Network", image := "", is_active := false,
      tags := [], updated_at := 0 }
    (by decide) (by decide) (by decide) (by rfl) (by decide)

/-- Adding one attendance row bumps the count of its event by one. -/
theorem countAttList_append_singleton (l : List EventAttendee) (a : EventAttendee) (i : Int) :
    countAttList (l ++ [a]) i = countAttList l i + (if a.event_id == i then 1 else 0) := by
  cases hq : (a.event_id == i) <;>
    simp [countAttList, List.filter_append, List.filter_cons, hq]

/-- Erasing the first row found by a predicate removes exactly that row
from every per-event count. -/
theorem countAttList_eraseP (p : EventAttendee → Bool) (l : List EventAttendee)
    (a : EventAttendee) (h : l.find? p = some a) (i : Int) :
    countAttList (l.eraseP p) i + (if a.event_id == i then 1 else 0) = countAttList l i := by
  induction l with
  | nil => simp at h
  | cons b l ih =>
    by_cases hpb : p b = true
    · rw [List.find?_cons_of_pos _ hpb] at h
      have hab : a = b := by
        injection h with h
        exact h.symm
      subst hab
      rw [List.eraseP_cons_of_pos hpb]
      by_cases hq : a.event_id = i <;>
        simp [countAttList, List.filter_cons, hq]
    · have hpb2 : p b = false := by simpa using hpb
      rw [List.find?_cons_of_neg _ (by simp [hpb2])] at h
      have ih2 := ih h
      rw [List.eraseP_cons_of_neg (by simp [hpb2])]
      cases hq : (b.event_id == i) <;>
        cases hqa : (a.event_id == i) <;>
        simp only [countAttList, List.filter_cons, hq, hqa, if_pos, if_neg,
          Bool.false_eq_true, ite_true, ite_false, List.length_cons] at ih2 ⊢ <;>
        push_cast at ih2 ⊢ <;> omega

/-- A found attendance row makes its event's count positive. -/
theorem countAttList_pos (l : List EventAttendee) (p : EventAttendee → Bool)
    (a : EventAttendee) (h : l.find? p = some a) (i : Int) (hai : a.event_id = i) :
    1 ≤ countAttList l i := by
  have hmem : a ∈ l := List.mem_of_find?_eq_some h
  have hmf : a ∈ l.filter (fun x => x.event_id == i) := by
    simp [List.mem_filter, hmem, hai]
  have hlen : 0 < (l.filter (fun x => x.event_id == i)).length :=
    List.length_pos.2 (List.ne_nil_of_mem hmf)
  simp only [countAttList]
  omega

/-- The per-event sync-and-bound invariant: every event's counter equals
its attendance-row count and stays at or below capacity. -/
def SyncBound (s : Store) : Prop :=
  ∀ x ∈ s.events, x.current_attendees = countAtt s x.id ∧
    x.current_attendees ≤ x.max_attendees

/-- Case analysis of `register_for_event`: either the store is unchanged
or the call succeeded, incrementing the found event and appending the
attendance row. -/
theorem register_result_cases (s : Store) (event_id user_id : Int) :
    (register_for_event s event_id user_id).store = s ∨
    ∃ e, s.getEvent event_id = some e ∧
      ({ e with current_attendees := e.current_attendees + 1 } : Event).checkOk = true ∧
      (register_for_event s event_id user_id).store =
        { events := (s.setEvent
            { e with current_attendees := e.current_attendees + 1 }).events,
          attendances := s.attendances ++ [{ event_id := event_id, user_id := user_id }],
          notifications := s.notifications } := by
  cases hget : s.getEvent event_id with
  | none => left; simp [register_for_event, hget]
  | some e =>
    by_cases hact : e.is_active = true
    · by_cases hcr : e.can_register = true
      · cases hatt : s.findAttendance event_id user_id with
        | some a => left; simp [register_for_event, hget, hact, hcr, hatt]
        | none =>
          have hact3 : (!e.is_active) = false := by simp [hact]
          have hcr3 : (!e.can_register) = false := by simp [hcr]
          by_cases hchk :
              ({ e with current_attendees := e.current_attendees + 1 } : Event).checkOk = true
          · right
            refine ⟨e, rfl, hchk, ?_⟩
            simp [register_for_event, hget, hact3, hcr3, hatt, hchk, Store.setEvent]
          · left
            have hchk2 :
                ({ e with current_attendees := e.current_attendees + 1 } : Event).checkOk
                  = false := by simpa using hchk
            simp [register_for_event, hget, hact3, hcr3, hatt, hchk2]
      · left
        have hcr2 : e.can_register = false := by simpa using hcr
        simp [register_for_event, hget, hact, hcr2]
    · left
      have hact2 : e.is_active = false := by simpa using hact
      simp [register_for_event, hget, hact2]

/-- Case analysis of `unregister_from_event`: unchanged store, deletion
with no event row, or deletion with decrement. -/
theorem unregister_result_cases (s : Store) (event_id user_id : Int) :
    (unregister_from_event s event_id user_id).store = s ∨
    (∃ a, s.findAttendance event_id user_id = some a ∧ s.getEvent event_id = none ∧
      (unregister_from_event s event_id user_id).store =
        { events := s.events,
          attendances := s.attendances.eraseP (fun x => x.event_id == event_id && x.user_id == user_id),
          notifications := s.notifications }) ∨
    (∃ a e, s.findAttendance event_id user_id = some a ∧ s.getEvent event_id = some e ∧
      ({ e with current_attendees := e.current_attendees - 1 } : Event).checkOk = true ∧
      (unregister_from_event s event_id user_id).store =
        { events := (s.setEvent
            { e with current_attendees := e.current_attendees - 1 }).events,
          attendances := s.attendances.eraseP (fun x => x.event_id == event_id && x.user_id == user_id),
          notifications := s.notifications }) := by
  cases hatt : s.findAttendance event_id user_id with
  | none => left; simp [unregister_from_event, hatt]
  | some a =>
    cases hget : s.getEvent event_id with
    | none =>
      right; left
      exact ⟨a, rfl, rfl, by simp [unregister_from_event, hatt, hget]⟩
    | some e =>
      by_cases hchk :
          ({ e with current_attendees := e.current_attendees - 1 } : Event).checkOk = true
      · right; right
        refine ⟨a, e, rfl, rfl, hchk, ?_⟩
        simp [unregister_from_event, hatt, hget, hchk, Store.setEvent]
      · left
        have hchk2 :
            ({ e with current_attendees := e.current_attendees - 1 } : Event).checkOk
              = false := by simpa using hchk
        simp [unregister_from_event, hatt, hget, hchk2]

/-- A found event matches the requested primary key. -/
theorem getEvent_id (s : Store) (event_id : Int) (e : Event)
    (h : s.getEvent event_id = some e) : e.id = event_id := by
  have h2 := List.find?_some h
  simpa using h2

/-- A found attendance row carries the requested event id. -/
theorem findAttendance_event_id (s : Store) (event_id user_id : Int) (a : EventAttendee)
    (h : s.findAttendance event_id user_id = some a) : a.event_id = event_id := by
  have h2 := List.find?_some h
  simp at h2
  exact h2.1

/-- `register_for_event` preserves the sync-and-bound invariant. -/
theorem register_preserves_sync (s : Store) (event_id user_id : Int) (h : SyncBound s) :
    SyncBound (register_for_event s event_id user_id).store := by
  rcases register_result_cases s event_id user_id with heq | ⟨e, hget, hchk, heq⟩
  · rw [heq]; exact h
  · rw [heq]
    intro x hx
    have hmem : e ∈ s.events := List.mem_of_find?_eq_some hget
    have hide : e.id = event_id := getEvent_id s event_id e hget
    have hbound : e.current_attendees + 1 ≤ e.max_attendees := by
      simp [Event.checkOk] at hchk
      omega
    obtain ⟨y, hy, hxy⟩ := List.mem_map.1 hx
    by_cases hc : y.id = e.id
    · rw [if_pos (by simpa using hc)] at hxy
      subst hxy
      refine ⟨?_, by simpa using hbound⟩
      have hsync := (h e hmem).1
      simp only [countAtt] at hsync ⊢
      rw [countAttList_append_singleton]
      have hif : ((({ event_id := event_id, user_id := user_id } : EventAttendee).event_id ==
          ({ e with current_attendees := e.current_attendees + 1 } : Event).id)) =
          (event_id == e.id) := rfl
      rw [hif, hide]
      simp [hsync, hide]
    · rw [if_neg (by simpa using hc)] at hxy
      subst hxy
      have hy2 := h y hy
      refine ⟨?_, hy2.2⟩
      have h1 := hy2.1
      simp only [countAtt] at h1 ⊢
      rw [countAttList_append_singleton]
      have hne : (event_id == y.id) = false := by
        rw [beq_eq_false_iff_ne]
        intro hcon
        exact hc (by rw [hide, hcon])
      have hif : ((({ event_id := event_id, user_id := user_id } : EventAttendee).event_id ==
          y.id)) = (event_id == y.id) := rfl
      rw [hif, hne]
      simpa using h1

/-- `unregister_from_event` preserves the sync-and-bound invariant. -/
theorem unregister_preserves_sync (s : Store) (event_id user_id : Int) (h : SyncBound s) :
    SyncBound (unregister_from_event s event_id user_id).store := by
  rcases unregister_result_cases s event_id user_id with heq | ⟨a, hatt, hget, heq⟩ |
    ⟨a, e, hatt, hget, hchk, heq⟩
  · rw [heq]; exact h
  · rw [heq]
    intro x hx
    have hx2 : x ∈ s.events := hx
    have hcount := countAttList_eraseP
      (fun z => z.event_id == event_id && z.user_id == user_id) s.attendances a hatt x.id
    have hae : a.event_id = event_id := findAttendance_event_id s event_id user_id a hatt
    have hne : x.id ≠ event_id := by
      intro hcon
      have hnone := List.find?_eq_none.1 hget x hx2
      simp [hcon] at hnone
    have hif : (a.event_id == x.id) = false := by
      rw [beq_eq_false_iff_ne, hae]
      exact fun hcon => hne hcon.symm
    rw [hif] at hcount
    simp only [if_neg Bool.false_ne_true, add_zero] at hcount
    have hy2 := h x hx2
    refine ⟨?_, hy2.2⟩
    simp only [countAtt] at hy2 ⊢
    rw [hcount]
    exact hy2.1
  · rw [heq]
    intro x hx
    have hmem : e ∈ s.events := List.mem_of_find?_eq_some hget
    have hide : e.id = event_id := getEvent_id s event_id e hget
    have hae : a.event_id = event_id := findAttendance_event_id s event_id user_id a hatt
    obtain ⟨y, hy, hxy⟩ := List.mem_map.1 hx
    by_cases hc : y.id = e.id
    · rw [if_pos (by simpa using hc)] at hxy
      subst hxy
      have hsync := (h e hmem).1
      have hbound := (h e hmem).2
      refine ⟨?_, by simpa using (by omega : e.current_attendees - 1 ≤ e.max_attendees)⟩
      have hcount := countAttList_eraseP
        (fun z => z.event_id == event_id && z.user_id == user_id) s.attendances a hatt event_id
      have hcount2 : countAttList (List.eraseP
            (fun z => z.event_id == event_id && z.user_id == user_id) s.attendances) event_id
          + 1 = countAttList s.attendances event_id := by
        simpa [hae] using hcount
      have hsync2 : e.current_attendees = countAttList s.attendances event_id := by
        simpa [countAtt, hide] using hsync
      simp only [countAtt]
      rw [show ({ e with current_attendees := e.current_attendees - 1 } : Event).id
        = event_id from hide]
      omega
    · rw [if_neg (by simpa using hc)] at hxy
      subst hxy
      have hy2 := h y hy
      refine ⟨?_, hy2.2⟩
      have hcount := countAttList_eraseP
        (fun z => z.event_id == event_id && z.user_id == user_id) s.attendances a hatt y.id
      have hif : (a.event_id == y.id) = false := by
        rw [beq_eq_false_iff_ne, hae]
        intro hcon
        exact hc (by rw [hide, hcon])
      rw [hif] at hcount
      simp only [if_neg Bool.false_ne_true, add_zero] at hcount
      simp only [countAtt] at hy2 ⊢
      rw [hcount]
      exact hy2.1

/-- Every call of the attendance manager preserves the invariant. -/
theorem stepCall_preserves_sync (s : Store) (c : Call) (h : SyncBound s) :
    SyncBound (stepCall s c) := by
  cases c with
  | register e u => exact register_preserves_sync s e u h
  | unregister e u => exact unregister_preserves_sync s e u h

/-- Any register/unregister sequence preserves the invariant. -/
theorem runCalls_preserves_sync (cs : List Call) (s : Store) (h : SyncBound s) :
    SyncBound (runCalls s cs) := by
  induction cs generalizing s with
  | nil => exact h
  | cons c cs ih => exact ih (stepCall s c) (stepCall_preserves_sync s c h)

/-! ### Claim C1: the capacity invariant over call sequences -/

/-- Initial state for the C1 counterexample: counter 3 equals the number
of attendance rows but exceeds the capacity of 1. -/
def cexStore : Store :=
  { events := [{ id := 1, title := "Tiny Workshop", description := "A very small workshop",
                 location := "Room 5", start_date := 100, end_date := 200,
                 max_attendees := 1, current_attendees := 3, created_by := 7,
                 university := "Student Event Network", image := "", is_active := true,
                 tags := [], updated_at := 0 }],
    attendances := [{ event_id := 1, user_id := 1 }, { event_id := 1, user_id := 2 },
                    { event_id := 1, user_id := 3 }],
    notifications := [] }

/-- Initial state for the C1 witness: synced and within capacity. -/
def wStore : Store :=
  { events := [{ id := 1, title := "Board Games", description := "An evening of board games",
                 location := "Common Room", start_date := 100, end_date := 200,
                 max_attendees := 3, current_attendees := 2, created_by := 7,
                 university := "Student Event Network", image := "", is_active := true,
                 tags := [], updated_at := 0 }],
    attendances := [{ event_id := 1, user_id := 1 }, { event_id := 1, user_id := 2 }],
    notifications := [] }


/-- Counterexample to C1 as stated.  The claim constrains the initial
state only by counter/row sync; starting from a synced event whose
counter (3) already exceeds `max_attendees` (1), the invariant
`0 <= current_attendees <= max_attendees` does not hold after the one
call of the sequence (the unregister rolls back on the
`current_attendees <= max_attendees` constraint, leaving 3 > 1). -/
theorem capacity_invariant_counterexample :
    (∀ e ∈ cexStore.events, e.current_attendees = countAtt cexStore e.id) ∧
    ¬(∀ e ∈ (runCalls cexStore [Call.unregister 1 1]).events,
        0 ≤ e.current_attendees ∧ e.current_attendees ≤ e.max_attendees) := by
  constructor
  · decide
  · decide

/-- C1 as amended.  From an initial state where every event's counter
equals its attendance-row count and is within capacity, any sequence of
register/unregister calls keeps `0 <= current_attendees <=
max_attendees` (the universal quantification over sequences covers
every prefix, hence the invariant after each call). -/
theorem capacity_invariant_after_calls (s : Store)
    (hsync : ∀ e ∈ s.events, e.current_attendees = countAtt s e.id)
    (hcap : ∀ e ∈ s.events, e.current_attendees ≤ e.max_attendees)
    (cs : List Call) :
    ∀ e ∈ (runCalls s cs).events,
      0 ≤ e.current_attendees ∧ e.current_attendees ≤ e.max_attendees := by
  have hsb : SyncBound (runCalls s cs) :=
    runCalls_preserves_sync cs s (fun x hx => ⟨hsync x hx, hcap x hx⟩)
  intro e he
  obtain ⟨h1, h2⟩ := hsb e he
  refine ⟨?_, h2⟩
  rw [h1]
  simp only [countAtt, countAttList]
  positivity

/-- The event row of `wStore` after registering user 3 and then
unregistering user 2. -/
def wEventAfter : Event :=
  { id := 1, title := "Board Games", description := "An evening of board games",
    location := "Common Room", start_date := 100, end_date := 200,
    max_attendees := 3, current_attendees := 2, created_by := 7,
    university := "Student Event Network", image := "", is_active := true,
    tags := [], updated_at := 0 }

/-- Witness for the amended C1 on a small synced store and a
register-then-unregister sequence, instantiated at the resulting event
row. -/
theorem capacity_invariant_after_calls_witness :
    0 ≤ wEventAfter.current_attendees ∧
      wEventAfter.current_attendees ≤ wEventAfter.max_attendees :=
  capacity_invariant_after_calls wStore (by decide) (by decide)
    [Call.register 1 3, Call.unregister 1 2] wEventAfter (by decide)

/-! ### Claim C8: reminder sweep idempotence -/

/-- The duplicate-suppression lookup succeeds exactly on key equality. -/
theorem notifMatches_iff_key (n c : Notification) :
    notifMatches n c = true ↔ notifKey n = notifKey c := by
  simp [notifMatches, notifKey]
  tauto

/-- Invariants of the sweep fold: the notification table only grows by
a `created` suffix whose length is the returned count; created rows have
pairwise distinct keys, come from the candidate list, clash with no
pre-existing row, and afterwards every candidate key is present. -/
theorem foldl_addIfMissing_spec (cs ns : List Notification) (cnt : Nat) :
    ∃ created : List Notification,
      cs.foldl addIfMissing (ns, cnt) = (ns ++ created, cnt + created.length) ∧
      created.Pairwise (fun n m => notifKey n ≠ notifKey m) ∧
      (∀ n ∈ created, n ∈ cs) ∧
      (∀ n ∈ created, ∀ m ∈ ns, notifKey m ≠ notifKey n) ∧
      (∀ c ∈ cs, ∃ n ∈ ns ++ created, notifKey n = notifKey c) := by
  induction cs generalizing ns cnt with
  | nil => exact ⟨[], by simp, by simp, by simp, by simp, by simp⟩
  | cons c cs ih =>
    by_cases hc : (ns.any (fun n => notifMatches n c)) = true
    · obtain ⟨created, heq, hpw, hsub, hfresh, hcov⟩ := ih ns cnt
      refine ⟨created, ?_, hpw, ?_, hfresh, ?_⟩
      · simpa [addIfMissing, hc] using heq
      · exact fun n hn => List.mem_cons_of_mem _ (hsub n hn)
      · intro c2 hc2
        rcases List.mem_cons.1 hc2 with rfl | hmem
        · obtain ⟨n, hn, hm⟩ := List.any_eq_true.1 hc
          exact ⟨n, List.mem_append_left _ hn, (notifMatches_iff_key n c2).1 hm⟩
        · exact hcov c2 hmem
    · have hc2 : (ns.any (fun n => notifMatches n c)) = false := by simpa using hc
      obtain ⟨created, heq, hpw, hsub, hfresh, hcov⟩ := ih (ns ++ [c]) (cnt + 1)
      have hstep : List.foldl addIfMissing (ns, cnt) (c :: cs)
          = List.foldl addIfMissing (ns ++ [c], cnt + 1) cs := by
        simp [List.foldl_cons, addIfMissing, hc2]
      have hnsfresh : ∀ m ∈ ns, notifKey m ≠ notifKey c := by
        intro m hm hkey
        have : ns.any (fun n => notifMatches n c) = true :=
          List.any_eq_true.2 ⟨m, hm, (notifMatches_iff_key m c).2 hkey⟩
        rw [this] at hc2
        exact absurd hc2 (by simp)
      refine ⟨c :: created, ?_, ?_, ?_, ?_, ?_⟩
      · rw [hstep, heq]
        refine Prod.ext ?_ ?_
        · simp
        · simp
          omega
      · refine List.pairwise_cons.2 ⟨?_, hpw⟩
        intro n hn
        exact hfresh n hn c (List.mem_append_right _ (List.mem_singleton.2 rfl))
      · intro n hn
        rcases List.mem_cons.1 hn with rfl | hmem
        · exact List.mem_cons_self _ _
        · exact List.mem_cons_of_mem _ (hsub n hmem)
      · intro n hn m hm
        rcases List.mem_cons.1 hn with rfl | hmem
        · exact hnsfresh m hm
        · exact hfresh n hmem m (List.mem_append_left _ hm)
      · intro c2 hc2m
        rcases List.mem_cons.1 hc2m with rfl | hmem
        · exact ⟨c2, List.mem_append_right _ (List.mem_cons_self _ _), rfl⟩
        · obtain ⟨n, hn, hk⟩ := hcov c2 hmem
          refine ⟨n, ?_, hk⟩
          simpa [List.append_assoc] using hn

/-- When every candidate key is already present, the sweep fold is a
no-op. -/
theorem foldl_addIfMissing_noop (cs ns : List Notification)
    (h : ∀ c ∈ cs, ∃ n ∈ ns, notifKey n = notifKey c) :
    cs.foldl addIfMissing (ns, 0) = (ns, 0) := by
  induction cs with
  | nil => rfl
  | cons c cs ih =>
    have hc : ns.any (fun n => notifMatches n c) = true := by
      obtain ⟨n, hn, hk⟩ := h c (List.mem_cons_self c cs)
      exact List.any_eq_true.2 ⟨n, hn, (notifMatches_iff_key n c).2 hk⟩
    have hstep : List.foldl addIfMissing (ns, 0) (c :: cs)
        = List.foldl addIfMissing (ns, 0) cs := by
      simp [List.foldl_cons, addIfMissing, hc]
    rw [hstep]
    exact ih (fun c2 h2 => h c2 (List.mem_cons_of_mem _ h2))

/-- Every sweep candidate is one of the two reminder types. -/
theorem reminderCandidates_types (s : Store) (now : Int) (c : Notification)
    (hc : c ∈ reminderCandidates s now) :
    c.type = "event_starting" ∨ c.type = "event_soon" := by
  simp only [reminderCandidates, List.mem_append, List.mem_flatten, List.mem_map] at hc
  rcases hc with ⟨l, ⟨e, he, rfl⟩, hcl⟩ | ⟨l, ⟨e, he, rfl⟩, hcl⟩ <;>
    obtain ⟨a, ha, rfl⟩ := List.mem_map.1 hcl
  · left; rfl
  · right; rfl

/-- C8.  One reminder sweep appends a list of created notifications
whose length is the returned count; the created rows have pairwise
distinct `(user, event, type)` keys (at most one per pair) and are all
of the two reminder types; and a second sweep over the unchanged store
(same clock) creates nothing and returns 0. -/
theorem reminder_sweep_idempotent (s : Store) (now : Int) :
    ∃ created : List Notification,
      create_event_reminder_notifications s now =
        (created.length, { s with notifications := s.notifications ++ created }) ∧
      created.Pairwise (fun n m => notifKey n ≠ notifKey m) ∧
      (∀ n ∈ created, n.type = "event_starting" ∨ n.type = "event_soon") ∧
      create_event_reminder_notifications
          (create_event_reminder_notifications s now).2 now =
        (0, (create_event_reminder_notifications s now).2) := by
  obtain ⟨created, heq, hpw, hsub, hfresh, hcov⟩ :=
    foldl_addIfMissing_spec (reminderCandidates s now) s.notifications 0
  have hmain : create_event_reminder_notifications s now =
      (created.length, { s with notifications := s.notifications ++ created }) := by
    simp [create_event_reminder_notifications, heq]
  refine ⟨created, hmain, hpw,
    fun n hn => reminderCandidates_types s now n (hsub n hn), ?_⟩
  rw [hmain]
  have hcand : reminderCandidates
      { s with notifications := s.notifications ++ created } now
      = reminderCandidates s now := rfl
  have hnoop : (reminderCandidates s now).foldl addIfMissing
      (s.notifications ++ created, 0) = (s.notifications ++ created, 0) :=
    foldl_addIfMissing_noop _ _ (fun c hcm => hcov c hcm)
  simp [create_event_reminder_notifications, hcand, hnoop]

/-! ### Claim C6: the tag filter -/

/-- With distinct primary keys, listed events are determined by their id. -/
theorem event_eq_of_id_eq (s : Store) (hid : (s.events.map Event.id).Nodup)
    {x y : Event} (hx : x ∈ s.events) (hy : y ∈ s.events) (hxy : x.id = y.id) : x = y :=
  List.inj_on_of_nodup_map hid hx hy hxy

/-- Membership in the id-re-query step: with distinct, positive ids the
`Event.id.in_(ids)` re-query returns exactly the previously matched
events. -/
theorem mem_requery (s : Store) (hid : (s.events.map Event.id).Nodup)
    (sub : List Event) (hsub : ∀ x ∈ sub, x ∈ s.events ∧ x.is_active = true) (e : Event) :
    e ∈ s.events.filter
        (fun x => (sub.map Event.id).contains x.id && x.is_active) ↔ e ∈ sub := by
  constructor
  · intro he
    obtain ⟨hmem, hcond⟩ := List.mem_filter.1 he
    rw [Bool.and_eq_true] at hcond
    obtain ⟨hin, -⟩ := hcond
    have hin2 : e.id ∈ sub.map Event.id := by simpa using hin
    obtain ⟨m, hm, hmid⟩ := List.mem_map.1 hin2
    have hme : m = e := event_eq_of_id_eq s hid (hsub m hm).1 hmem hmid
    exact hme ▸ hm
  · intro he
    refine List.mem_filter.2 ⟨(hsub e he).1, ?_⟩
    rw [Bool.and_eq_true]
    refine ⟨?_, (hsub e he).2⟩
    simpa using List.mem_map_of_mem Event.id he

/-- The sentinel re-query `Event.id == -1` is empty when all ids are
positive. -/
theorem sentinel_empty (s : Store) (hpos : ∀ e ∈ s.events, 0 < e.id) :
    s.events.filter (fun e => e.id == -1) = [] := by
  rw [List.filter_eq_nil_iff]
  intro e he
  have := hpos e he
  simp
  omega

/-- The tag test against `["music"]` holds exactly when some tag
lowercases to `"music"`. -/
theorem tagFilterMatches_music (e : Event) :
    tagFilterMatches ["music"] e = true ↔ ∃ t ∈ e.tags, pyLower t = "music" := by
  have hm : pyLower "music" = "music" := rfl
  constructor
  · intro h
    rw [tagFilterMatches, Bool.and_eq_true] at h
    obtain ⟨-, hc⟩ := h
    obtain ⟨ut, hut, hcon⟩ := List.any_eq_true.1 hc
    obtain rfl := List.mem_singleton.1 hut
    rw [hm] at hcon
    have hcon2 : "music" ∈ e.tags.map pyLower := by simpa using hcon
    obtain ⟨t, ht, hteq⟩ := List.mem_map.1 hcon2
    exact ⟨t, ht, hteq⟩
  · intro hex
    obtain ⟨t, ht, hteq⟩ := hex
    rw [tagFilterMatches, Bool.and_eq_true]
    refine ⟨?_, ?_⟩
    · simpa using List.ne_nil_of_mem ht
    · refine List.any_eq_true.2 ⟨"music", List.mem_singleton.2 rfl, ?_⟩
      rw [hm]
      have hmm : "music" ∈ e.tags.map pyLower := hteq ▸ List.mem_map_of_mem pyLower ht
      simpa using hmm

/-- C6.  Listing events with the single filter `tags=["music"]` returns
exactly the active events having some tag case-insensitively equal to
`"music"` (exact equality, not substring), ordered ascending by
`start_date`.  Distinct positive primary keys reflect the store's
autoincrement id column. -/
theorem list_events_tag_filter_music (s : Store)
    (hid : (s.events.map Event.id).Nodup)
    (hpos : ∀ e ∈ s.events, 0 < e.id) :
    ∃ l, get_events_with_filters s
        { tags := some ["music"], search := none,
          start_date_after := none, end_date_before := none } = QueryResult.ok l ∧
      (∀ e, e ∈ l ↔ e ∈ s.events ∧ e.is_active = true ∧
        ∃ t ∈ e.tags, pyLower t = "music") ∧
      l.Sorted eventLE := by
  have hsub : ∀ x ∈ (s.events.filter (fun e => e.is_active)).filter
      (tagFilterMatches ["music"]), x ∈ s.events ∧ x.is_active = true := by
    intro x hx
    have h1 := (List.mem_filter.1 hx).1
    exact ⟨(List.mem_filter.1 h1).1, (List.mem_filter.1 h1).2⟩
  by_cases hempty :
      ((s.events.filter (fun e => e.is_active)).filter
        (tagFilterMatches ["music"])).isEmpty = true
  · have hml : (s.events.filter (fun e => e.is_active)).filter
        (tagFilterMatches ["music"]) = [] := by
      simpa using hempty
    refine ⟨List.insertionSort eventLE (s.events.filter (fun e => e.id == -1)),
      ?_, ?_, ?_⟩
    · simp only [get_events_with_filters]
      rw [if_neg (by simp), if_pos hempty]
    · intro e
      rw [sentinel_empty s hpos]
      constructor
      · intro he
        simp [List.insertionSort] at he
      · intro hex
        obtain ⟨hmem, hact, t, ht, hteq⟩ := hex
        exfalso
        have hin : e ∈ (s.events.filter (fun e => e.is_active)).filter
            (tagFilterMatches ["music"]) :=
          List.mem_filter.2 ⟨List.mem_filter.2 ⟨hmem, hact⟩,
            (tagFilterMatches_music e).2 ⟨t, ht, hteq⟩⟩
        rw [hml] at hin
        simp at hin
    · exact List.sorted_insertionSort eventLE _
  · have hempty2 : ((s.events.filter (fun e => e.is_active)).filter
        (tagFilterMatches ["music"])).isEmpty = false := by
      simpa using hempty
    refine ⟨List.insertionSort eventLE (s.events.filter (fun e =>
        ((((s.events.filter (fun e => e.is_active)).filter
          (tagFilterMatches ["music"])).map Event.id).contains e.id) && e.is_active)),
      ?_, ?_, ?_⟩
    · simp only [get_events_with_filters]
      rw [if_neg (by simp), if_neg (by simp only [hempty2]; simp)]
    · intro e
      rw [List.mem_insertionSort, mem_requery s hid _ hsub e]
      constructor
      · intro he
        have h1 := List.mem_filter.1 he
        have h0 := List.mem_filter.1 h1.1
        exact ⟨h0.1, h0.2, (tagFilterMatches_music e).1 h1.2⟩
      · intro hex
        obtain ⟨hmem, hact, hx⟩ := hex
        exact List.mem_filter.2 ⟨List.mem_filter.2 ⟨hmem, hact⟩,
          (tagFilterMatches_music e).2 hx⟩
    · exact List.sorted_insertionSort eventLE _

/-- Store for the C6/C7 witnesses: a matching active event, a
non-matching active event and a matching but soft-deleted event. -/
def sQuery : Store :=
  { events := [
      { id := 1, title := "Jazz Night", description := "An evening of jazz music",
        location := "Club", start_date := 300, end_date := 400, max_attendees := 50,
        current_attendees := 0, created_by := 7, university := "Student Event Network",
        image := "", is_active := true, tags := ["Music", "jazz"], updated_at := 0 },
      { id := 2, title := "Football", description := "A football match to watch",
        location := "Stadium", start_date := 100, end_date := 200, max_attendees := 50,
        current_attendees := 0, created_by := 7, university := "Student Event Network",
        image := "", is_active := true, tags := ["sports"], updated_at := 0 },
      { id := 3, title := "Hidden gig", description := "A deleted music event",
        location := "Bar", start_date := 50, end_date := 60, max_attendees := 50,
        current_attendees := 0, created_by := 7, university := "Student Event Network",
        image := "", is_active := false, tags := ["music"], updated_at := 0 }],
    attendances := [], notifications := [] }

/-- Witness for C6 on `sQuery`. -/
theorem list_events_tag_filter_music_witness :
    ∃ l, get_events_with_filters sQuery
        { tags := some ["music"], search := none,
          start_date_after := none, end_date_before := none } = QueryResult.ok l ∧
      (∀ e, e ∈ l ↔ e ∈ sQuery.events ∧ e.is_active = true ∧
        ∃ t ∈ e.tags, pyLower t = "music") ∧
      l.Sorted eventLE :=
  list_events_tag_filter_music sQuery (by decide) (by decide)

/-! ### Claim C7: the search filter -/

/-- Lowercasing preserves emptiness. -/
theorem pyLower_eq_empty_iff (t : String) : pyLower t = "" ↔ t = "" := by
  cases t with
  | mk data =>
    cases data with
    | nil => exact ⟨fun _ => rfl, fun _ => rfl⟩
    | cons c cs =>
      constructor
      · intro h
        exact absurd (congrArg String.data h) (by simp [pyLower])
      · intro h
        exact absurd (congrArg String.data h) (by simp)

/-- Only the empty string is a substring of the empty string. -/
theorem eq_empty_of_pyIn_empty (t : String) (h : pyIn t "" = true) : t = "" := by
  cases t with
  | mk data =>
    cases data with
    | nil => rfl
    | cons c cs => simp [pyIn, listContains, List.isEmpty] at h

/-- With a nonempty stripped search term, the tag-search loop succeeds
exactly when some tag contains the lowercased stripped term. -/
theorem searchTags_iff (q : String) (hstrip : lstripHash q ≠ "") (e : Event) :
    searchTags q e = true ↔
      ∃ tag ∈ e.tags, pyIn (pyLower (lstripHash q)) (pyLower tag) = true := by
  constructor
  · intro h
    obtain ⟨tag, htag, hcond⟩ := List.any_eq_true.1 h
    rw [Bool.and_eq_true] at hcond
    exact ⟨tag, htag, hcond.2⟩
  · intro hex
    obtain ⟨tag, htag, hin⟩ := hex
    have htagne : tag ≠ "" := by
      intro h0
      rw [h0] at hin
      have h1 : pyLower "" = "" := rfl
      rw [h1] at hin
      exact hstrip ((pyLower_eq_empty_iff _).1 (eq_empty_of_pyIn_empty _ hin))
    refine List.any_eq_true.2 ⟨tag, htag, ?_⟩
    rw [Bool.and_eq_true]
    exact ⟨by simpa using htagne, hin⟩

/-- Elements of the de-duplication pass come from its input. -/
theorem mem_dedupById (l : List Event) (seen : List Int) (e : Event)
    (h : e ∈ dedupById l seen) : e ∈ l := by
  induction l generalizing seen with
  | nil => simp [dedupById] at h
  | cons x rest ih =>
    by_cases hc : seen.contains x.id = true
    · simp only [dedupById, hc, if_pos] at h
      exact List.mem_cons_of_mem _ (ih _ h)
    · have hc2 : seen.contains x.id = false := by simpa using hc
      simp only [dedupById, hc2] at h
      rcases List.mem_cons.1 h with rfl | hmem
      · exact List.mem_cons_self _ _
      · exact List.mem_cons_of_mem _ (ih _ hmem)

/-- The ids surviving de-duplication are the input ids not yet seen. -/
theorem mem_map_id_dedupById (l : List Event) (seen : List Int) (x : Int) :
    x ∈ (dedupById l seen).map Event.id ↔ x ∈ l.map Event.id ∧ x ∉ seen := by
  induction l generalizing seen with
  | nil => simp [dedupById]
  | cons e rest ih =>
    by_cases hc : seen.contains e.id = true
    · have hesn : e.id ∈ seen := by simpa using hc
      simp only [dedupById, hc, if_pos, List.map_cons, List.mem_cons]
      rw [ih seen]
      constructor
      · intro hx
        exact ⟨Or.inr hx.1, hx.2⟩
      · intro hx
        rcases hx.1 with rfl | hmem
        · exact absurd hesn hx.2
        · exact ⟨hmem, hx.2⟩
    · have hc2 : seen.contains e.id = false := by simpa using hc
      have hens : e.id ∉ seen := by simpa using hc
      simp only [dedupById, hc2]
      rw [if_neg (by simp)]
      simp only [List.map_cons, List.mem_cons]
      rw [ih (e.id :: seen)]
      constructor
      · intro hx
        rcases hx with rfl | ⟨hmem, hnotin⟩
        · exact ⟨Or.inl rfl, hens⟩
        · exact ⟨Or.inr hmem, fun hs => hnotin (List.mem_cons_of_mem _ hs)⟩
      · intro hx
        rcases hx.1 with rfl | hmem
        · exact Or.inl rfl
        · by_cases hxe : x = e.id
          · exact Or.inl hxe
          · exact Or.inr ⟨hmem, by
              intro hcons
              rcases List.mem_cons.1 hcons with h1 | h2
              · exact hxe h1
              · exact hx.2 h2⟩

/-- With distinct ids, de-duplication of a sublist of the store changes
membership not at all (it only removes repeats). -/
theorem mem_dedupById_iff (s : Store) (hid : (s.events.map Event.id).Nodup)
    (l : List Event) (hl : ∀ x ∈ l, x ∈ s.events) (e : Event) :
    e ∈ dedupById l [] ↔ e ∈ l := by
  constructor
  · exact mem_dedupById l [] e
  · intro he
    have hx : e.id ∈ (dedupById l []).map Event.id := by
      rw [mem_map_id_dedupById]
      exact ⟨List.mem_map_of_mem Event.id he, by simp⟩
    obtain ⟨m, hm, hmid⟩ := List.mem_map.1 hx
    have hml : m ∈ l := mem_dedupById l [] m hm
    have : m = e := event_eq_of_id_eq s hid (hl m hml) (hl e he) hmid
    exact this ▸ hm

/-- C7.  Listing events with a search filter returns exactly the active
events matching the raw term as a case-insensitive substring of title
or description, or carrying a tag that contains the leading-`#`-stripped
lowercased term as a substring; the title/description and tag matches
are unioned and de-duplicated by event id, and the result is ordered
ascending by `start_date`.  `hstrip` excludes the degenerate all-`#`
term, whose stripped form is empty. -/
theorem list_events_search_filter (s : Store) (q : String)
    (hid : (s.events.map Event.id).Nodup)
    (hpos : ∀ e ∈ s.events, 0 < e.id)
    (hq : q ≠ "") (hstrip : lstripHash q ≠ "") :
    ∃ l, get_events_with_filters s
        { tags := none, search := some q,
          start_date_after := none, end_date_before := none } = QueryResult.ok l ∧
      (∀ e, e ∈ l ↔ e ∈ s.events ∧ e.is_active = true ∧
        (ilikeContains e.title q = true ∨ ilikeContains e.description q = true ∨
          ∃ tag ∈ e.tags, pyIn (pyLower (lstripHash q)) (pyLower tag) = true)) ∧
      l.Sorted eventLE := by
  have hqb : (q == "") = false := beq_eq_false_iff_ne.2 hq
  have hsubq1 : ∀ x ∈ s.events.filter (fun e => e.is_active),
      x ∈ s.events ∧ x.is_active = true := by
    intro x hx
    exact ⟨(List.mem_filter.1 hx).1, (List.mem_filter.1 hx).2⟩
  have hcomb : ∀ x ∈ (s.events.filter (fun e => e.is_active)).filter (searchTitleDesc q)
      ++ (s.events.filter (fun e => e.is_active)).filter (searchTags q),
      x ∈ s.events ∧ x.is_active = true := by
    intro x hx
    rcases List.mem_append.1 hx with h | h
    · exact hsubq1 x (List.mem_filter.1 h).1
    · exact hsubq1 x (List.mem_filter.1 h).1
  have hpred : ∀ e, (e ∈ (s.events.filter (fun e => e.is_active)).filter (searchTitleDesc q)
        ++ (s.events.filter (fun e => e.is_active)).filter (searchTags q)) ↔
      (e ∈ s.events ∧ e.is_active = true ∧
        (ilikeContains e.title q = true ∨ ilikeContains e.description q = true ∨
          ∃ tag ∈ e.tags, pyIn (pyLower (lstripHash q)) (pyLower tag) = true)) := by
    intro e
    constructor
    · intro hmem
      rcases List.mem_append.1 hmem with h | h
      · obtain ⟨hq1, htd⟩ := List.mem_filter.1 h
        obtain ⟨hm, ha⟩ := List.mem_filter.1 hq1
        have htd2 : ilikeContains e.title q = true ∨ ilikeContains e.description q = true := by
          simpa [searchTitleDesc, Bool.or_eq_true] using htd
        rcases htd2 with h2 | h2
        · exact ⟨hm, ha, Or.inl h2⟩
        · exact ⟨hm, ha, Or.inr (Or.inl h2)⟩
      · obtain ⟨hq1, htm⟩ := List.mem_filter.1 h
        obtain ⟨hm, ha⟩ := List.mem_filter.1 hq1
        obtain ⟨tag, htag, hin⟩ := (searchTags_iff q hstrip e).1 htm
        exact ⟨hm, ha, Or.inr (Or.inr ⟨tag, htag, hin⟩)⟩
    · intro hx
      obtain ⟨hm, ha, hdisj⟩ := hx
      have hq1 : e ∈ s.events.filter (fun e => e.is_active) := List.mem_filter.2 ⟨hm, ha⟩
      rcases hdisj with h | h | h
      · exact List.mem_append.2 (Or.inl (List.mem_filter.2
          ⟨hq1, by simp [searchTitleDesc, h]⟩))
      · exact List.mem_append.2 (Or.inl (List.mem_filter.2
          ⟨hq1, by simp [searchTitleDesc, h]⟩))
      · exact List.mem_append.2 (Or.inr (List.mem_filter.2
          ⟨hq1, (searchTags_iff q hstrip e).2 h⟩))
  by_cases hempty : (dedupById
      ((s.events.filter (fun e => e.is_active)).filter (searchTitleDesc q)
        ++ (s.events.filter (fun e => e.is_active)).filter (searchTags q)) []).isEmpty = true
  · have haml : dedupById
        ((s.events.filter (fun e => e.is_active)).filter (searchTitleDesc q)
          ++ (s.events.filter (fun e => e.is_active)).filter (searchTags q)) [] = [] := by
      simpa using hempty
    refine ⟨List.insertionSort eventLE (s.events.filter (fun e => e.id == -1)),
      ?_, ?_, ?_⟩
    · simp only [get_events_with_filters]
      rw [if_neg (by simp [hqb]), if_pos hempty]
    · intro e
      rw [sentinel_empty s hpos]
      constructor
      · intro he
        simp [List.insertionSort] at he
      · intro hx
        have hmem := (hpred e).2 hx
        have hidm : e.id ∈ (dedupById
            ((s.events.filter (fun e => e.is_active)).filter (searchTitleDesc q)
              ++ (s.events.filter (fun e => e.is_active)).filter (searchTags q)) []).map
            Event.id := by
          rw [mem_map_id_dedupById]
          exact ⟨List.mem_map_of_mem Event.id hmem, by simp⟩
        rw [haml] at hidm
        simp at hidm
    · exact List.sorted_insertionSort eventLE _
  · have hempty2 : (dedupById
        ((s.events.filter (fun e => e.is_active)).filter (searchTitleDesc q)
          ++ (s.events.filter (fun e => e.is_active)).filter (searchTags q)) []).isEmpty
        = false := by
      simpa using hempty
    have hsubam : ∀ x ∈ dedupById
        ((s.events.filter (fun e => e.is_active)).filter (searchTitleDesc q)
          ++ (s.events.filter (fun e => e.is_active)).filter (searchTags q)) [],
        x ∈ s.events ∧ x.is_active = true := by
      intro x hx
      exact hcomb x (mem_dedupById _ _ x hx)
    refine ⟨List.insertionSort eventLE (s.events.filter (fun e =>
        (((dedupById
          ((s.events.filter (fun e => e.is_active)).filter (searchTitleDesc q)
            ++ (s.events.filter (fun e => e.is_active)).filter (searchTags q)) []).map
          Event.id).contains e.id) && e.is_active)), ?_, ?_, ?_⟩
    · simp only [get_events_with_filters]
      rw [if_neg (by simp [hqb]), if_neg (by simp only [hempty2]; simp)]
    · intro e
      rw [List.mem_insertionSort, mem_requery s hid _ hsubam e,
        mem_dedupById_iff s hid _ (fun x hx => (hcomb x hx).1) e]
      exact hpred e
    · exact List.sorted_insertionSort eventLE _

/-- Witness for C7 on `sQuery` with the search term `"#jaz"`: it matches
the Jazz Night event through its `"jazz"` tag despite the leading `#`. -/
theorem list_events_search_filter_witness :
    ∃ l, get_events_with_filters sQuery
        { tags := none, search := some "#jaz",
          start_date_after := none, end_date_before := none } = QueryResult.ok l ∧
      (∀ e, e ∈ l ↔ e ∈ sQuery.events ∧ e.is_active = true ∧
        (ilikeContains e.title "#jaz" = true ∨ ilikeContains e.description "#jaz" = true ∨
          ∃ tag ∈ e.tags, pyIn (pyLower (lstripHash "#jaz")) (pyLower tag) = true)) ∧
      l.Sorted eventLE :=
  list_events_search_filter sQuery "#jaz" (by decide) (by decide)
    (by decide) (by decide)
